import Mathlib

/-!
# Verification of the DeltaJen incremental-update engine

A shallow embedding, in Lean 4, of the change-set computation and
install-script synthesis engine of `DeltaJen.py` (CyboLabs/DeltaJen),
together with proofs about the claims of its specification.

Modelling conventions:

* Python `bytes` values are `List Nat` (one `Nat` per byte).
* A zip entry (the information `load_files` keeps plus what
  `get_file_from_ptr` later reads back from the archive: name, raw data,
  timestamp, and the `external_attr` bits inspected by `_is_symlink`) is a
  `ZEntry`; a loaded catalog (`base_ptr` / `input_ptr`, Python dicts keyed
  by file name) is a `Catalog`, a list of entries in dict iteration order.
  The pointer indirection of `file_pointer` (name + zip handle, with data
  read back on demand) is collapsed: an entry carries its data.
* Python exceptions (`KeyError` from unguarded dict lookups, the
  `TypeError` raised by `len(None)`, `ValueError` from `Edify.apply_patch`,
  and the `FileNotFound` error of `DeltaJen.__init__`) are modelled with
  `Except PyErr`.
* `hashlib.sha1(...).hexdigest()` is implemented concretely (`sha1hexdigest`),
  byte-for-byte the SHA-1 of RFC 3174 over the raw content bytes.
* Edify commands are built as strings, mirroring the `%`-formatting of the
  source; concatenation is written right-associated (the same string value).
-/

namespace DeltaJen

/-! ## Python string helpers -/

/-- `(s ++ t).data = s.data ++ t.data` for Lean strings. -/
theorem dataAppend (s t : String) : (s ++ t).data = s.data ++ t.data := by
  cases s; cases t; rfl

/-- Decomposition of a prefix test against an appended list: the candidate
prefix must match on the first `p.length` characters and the remainder must
be a prefix of the tail. -/
theorem isPrefixOf_append (q p s : List Char) :
    q.isPrefixOf (p ++ s) =
      ((q.take p.length).isPrefixOf p && (q.drop p.length).isPrefixOf s) := by
  induction p generalizing q with
  | nil => simp [List.isPrefixOf]
  | cons b p ih =>
    cases q with
    | nil => simp [List.isPrefixOf]
    | cons a q =>
      simp only [List.cons_append, List.isPrefixOf, List.length_cons,
        List.take_succ_cons, List.drop_succ_cons]
      cases h : a == b <;> simp [h, ih]

/-- Model of Python `str.startswith`: `hasPfx p s` is `s.startswith(p)`. -/
def hasPfx (p s : String) : Bool := p.data.isPrefixOf s.data

/-- A string built by prepending the literal `p` cannot start with `q` when
`q` already diverges from `p` within `p`'s length. -/
theorem hasPfx_head_false (q p r : String)
    (h : (q.data.take p.data.length).isPrefixOf p.data = false) :
    hasPfx q (p ++ r) = false := by
  unfold hasPfx
  rw [dataAppend, isPrefixOf_append, h, Bool.false_and]

/-- A list is a prefix of itself followed by anything. -/
theorem isPrefixOf_refl_append (p s : List Char) : p.isPrefixOf (p ++ s) = true := by
  induction p with
  | nil => simp [List.isPrefixOf]
  | cons a p ih => simp [List.isPrefixOf, ih]

/-- A string built by prepending the literal `p` does start with `p`. -/
theorem hasPfx_self (p r : String) : hasPfx p (p ++ r) = true := by
  unfold hasPfx
  rw [dataAppend]
  exact isPrefixOf_refl_append _ _

/-! ## SHA-1 (`hashlib.sha1(data).hexdigest()`)

Concrete implementation of SHA-1 over byte lists, used by `file_object`
exactly where the source calls `sha1(data).hexdigest()`. -/

/-- Truncate to a 32-bit word. -/
def w32 (n : Nat) : Nat := n % 4294967296

/-- Rotate a 32-bit word left by `b` bits. -/
def rotl32 (b x : Nat) : Nat := w32 ((x <<< b) ||| (x >>> (32 - b)))

/-- SHA-1 round constant for round `t`. -/
def sha1K (t : Nat) : Nat :=
  if t < 20 then 0x5A827999
  else if t < 40 then 0x6ED9EBA1
  else if t < 60 then 0x8F1BBCDC
  else 0xCA62C1D6

/-- SHA-1 round function for round `t`. -/
def sha1F (t b c d : Nat) : Nat :=
  if t < 20 then (b &&& c) ||| ((0xFFFFFFFF ^^^ b) &&& d)
  else if t < 40 then b ^^^ c ^^^ d
  else if t < 60 then (b &&& c) ||| (b &&& d) ||| (c &&& d)
  else b ^^^ c ^^^ d

/-- Extend 16 message-schedule words to 80. -/
def sha1Extend (ws : Array Nat) : Array Nat :=
  (List.range 64).foldl
    (fun a i =>
      let t := i + 16
      a.push (rotl32 1 ((a.getD (t - 3) 0) ^^^ (a.getD (t - 8) 0) ^^^
        (a.getD (t - 14) 0) ^^^ (a.getD (t - 16) 0))))
    ws

/-- Process one 512-bit chunk (given as 16 32-bit words). -/
def sha1Chunk (h : Nat × Nat × Nat × Nat × Nat) (ws : Array Nat) :
    Nat × Nat × Nat × Nat × Nat :=
  let w := sha1Extend ws
  let (h0, h1, h2, h3, h4) := h
  let s := (List.range 80).foldl
    (fun (st : Nat × Nat × Nat × Nat × Nat) t =>
      let (a, b, c, d, e) := st
      let tmp := w32 (rotl32 5 a + sha1F t b c d + e + sha1K t + w.getD t 0)
      (tmp, a, rotl32 30 b, c, d))
    (h0, h1, h2, h3, h4)
  let (a, b, c, d, e) := s
  (w32 (h0 + a), w32 (h1 + b), w32 (h2 + c), w32 (h3 + d), w32 (h4 + e))

/-- SHA-1 padding: append `0x80`, zeros to 56 mod 64, then the 64-bit
big-endian bit length. -/
def sha1Pad (msg : List Nat) : List Nat :=
  let bitLen := msg.length * 8
  let z := (119 - msg.length % 64) % 64
  msg ++ [128] ++ List.replicate z 0 ++
    (List.range 8).map (fun i => bitLen / 2 ^ (8 * (7 - i)) % 256)

/-- Group bytes into big-endian 32-bit words. -/
def bytesToWords : List Nat → List Nat
  | b0 :: b1 :: b2 :: b3 :: rest =>
      (((b0 * 256 + b1) * 256 + b2) * 256 + b3) :: bytesToWords rest
  | _ => []

/-- Split a list into 64-byte chunks (fuel-driven). -/
def chunks64Aux : Nat → List Nat → List (List Nat)
  | 0, _ => []
  | _, [] => []
  | n + 1, l => l.take 64 :: chunks64Aux n (l.drop 64)

/-- The five 32-bit words of the SHA-1 digest of a byte list. -/
def sha1Digest (msg : List Nat) : Nat × Nat × Nat × Nat × Nat :=
  let padded := sha1Pad msg
  (chunks64Aux padded.length padded).foldl
    (fun h c => sha1Chunk h (Array.mk (bytesToWords c)))
    (0x67452301, 0xEFCDAB89, 0x98BADCFE, 0x10325476, 0xC3D2E1F0)

/-- Lowercase hex digit. -/
def hexDigit (n : Nat) : Char :=
  Char.ofNat (if n < 10 then 48 + n else 87 + n)

/-- Eight lowercase hex digits of a 32-bit word. -/
def hex8 (n : Nat) : String :=
  String.mk ((List.range 8).map (fun i => hexDigit (n / 16 ^ (7 - i) % 16)))

/-- `hashlib.sha1(msg).hexdigest()`: 40 lowercase hex characters. -/
def sha1hexdigest (msg : List Nat) : String :=
  let (h0, h1, h2, h3, h4) := sha1Digest msg
  hex8 h0 ++ hex8 h1 ++ hex8 h2 ++ hex8 h3 ++ hex8 h4

set_option maxRecDepth 100000 in
example : sha1hexdigest [] = "da39a3ee5e6b4b0d3255bfef95601890afd80709" := by decide

set_option maxRecDepth 100000 in
example : sha1hexdigest [97, 98, 99] =
    "a9993e364706816aba3e25717850c26c9cd0d89d" := by decide

/-! ## Python errors and the data model -/

/-- The Python exceptions the engine can raise: `KeyError` from an unguarded
dict lookup, `TypeError` from `len(None)`, `ValueError` from
`Edify.apply_patch`, and the `FileNotFound` error of `DeltaJen.__init__`. -/
inductive PyErr where
  | keyError : String → PyErr
  | typeError : PyErr
  | valueError : PyErr
  | fileNotFound : String → PyErr
  deriving Repr, DecidableEq

/-- One archive entry: name, raw content bytes, timestamp (`date_time`), and
the `external_attr` bits that `_is_symlink` inspects. -/
structure ZEntry where
  name : String
  data : List Nat
  time : Nat
  attr : Nat
  deriving Repr, DecidableEq

/-- A loaded catalog (`base_ptr` / `input_ptr`): dict from file name to
entry, as a list in dict iteration order. -/
abbrev Catalog := List ZEntry

/-- `d.get(f_name, None)` on a catalog. -/
def lookupPtr (cat : Catalog) (f : String) : Option ZEntry :=
  cat.find? (fun e => e.name == f)

/-- `d[f_name]` on a catalog: raises `KeyError` when absent. -/
def dictGet (cat : Catalog) (f : String) : Except PyErr ZEntry :=
  match lookupPtr cat f with
  | some e => Except.ok e
  | none => Except.error (PyErr.keyError f)

/-- The file object produced by `DeltaJen.file_object`: name, data, time,
`size = len(data)`, `sha1 = sha1(data).hexdigest()`. -/
structure FileObj where
  name : String
  data : List Nat
  time : Nat
  size : Nat
  sha1 : String
  deriving Repr, DecidableEq

/-- `DeltaJen.file_object(name, data, time)` for `data` an actual byte
string (the caller in `create_patches` that can pass `None` is modelled at
its call site, where `len(None)` raises `TypeError`). -/
def file_object (name : String) (data : List Nat) (time : Nat) : FileObj :=
  { name := name, data := data, time := time,
    size := data.length, sha1 := sha1hexdigest data }

/-- `DeltaJen.get_file_from_ptr`: read the data and timestamp behind a
pointer and build the file object. -/
def get_file_from_ptr (e : ZEntry) : FileObj :=
  file_object e.name e.data e.time

/-- `DeltaJen._is_symlink`: `(external_attr >> 16) & 0o770000 == 0o120000`. -/
def is_symlink (e : ZEntry) : Bool :=
  (e.attr >>> 16) &&& 0o770000 == 0o120000

/-- One entry written into the output archive by `add_to_zip`: `ZipInfo`
name and timestamp, the written data, the `external_attr` and
`compress_type` it sets. -/
structure OutEntry where
  name : String
  data : List Nat
  time : Nat
  extAttr : Nat
  compressType : Nat
  deriving Repr, DecidableEq

/-- The output archive: its compression constant (`ZIP_DEFLATED`) and the
entries written so far, in write order. -/
structure OutZip where
  compression : Nat
  entries : List OutEntry
  deriving Repr, DecidableEq

/-- `DeltaJen.add_to_zip(file_obj, z_file)`: builds a `ZipInfo` from the
object's name and time, sets `compress_type` to the archive's compression
and `external_attr` to `0o644 << 16`, and writes the object's data.
(Only the `name`, `time` and `data` fields of the file object are read.) -/
def add_to_zip (name : String) (data : List Nat) (time : Nat) (z : OutZip) :
    OutZip :=
  { z with entries := z.entries ++
      [{ name := name, data := data, time := time,
         extAttr := 0o644 <<< 16, compressType := z.compression }] }

/-- Bytes of a script string as written by `writestr` (the synthesized
scripts are ASCII, so character codes coincide with the UTF-8 bytes). -/
def strBytes (s : String) : List Nat := s.data.map (fun c => c.toNat)

/-! ## Edify command serialization (`class Edify`)

Each method mirrors the `%`-formatting of the source; concatenation is
written right-associated. -/

namespace Edify

/-- `Edify.ui_print`: `'ui_print("%s");' % message`. -/
def ui_print (message : String) : String :=
  "ui_print(\"" ++ (message ++ "\");")

/-- `Edify.abort`: `'abort("%s");' % message`. -/
def abortCmd (message : String) : String :=
  "abort(\"" ++ (message ++ "\");")

/-- `Edify.apply_patch_check(f_name, *sha, abort=...)`. -/
def apply_patch_check (f_name : String) (sha : List String)
    (abortFlag : Bool) : String :=
  "apply_patch_check(\"" ++ (f_name ++ ("\"" ++
    (String.join (sha.map (fun i => ", \"" ++ (i ++ "\""))) ++
      (") || " ++
        (if abortFlag then
          abortCmd ("\\\"" ++ (f_name ++ "\\\" has unexpected contents."))
         else
          ui_print ("\\\"" ++
            (f_name ++ "\\\" has unexpected contents. assuming fine.")))))))

/-- The `', %s, package_extract_file("%s")'` pieces appended for each
(sha1, patch-file) pair of `Edify.apply_patch` (the final pair written
without a trailing continuation). -/
def patchPairsStr : List String → String
  | [a, b] => ", " ++ (a ++ (", package_extract_file(\"" ++ (b ++ "\")")))
  | a :: b :: rest =>
      ", " ++ (a ++ (", package_extract_file(\"" ++ (b ++ ("\")" ++
        patchPairsStr rest))))
  | _ => ""

/-- `Edify.apply_patch(b_name, n_name, n_size, n_sha, *patch_pairs,
abort=...)`: raises `ValueError` on an empty or odd-length pair tuple;
otherwise serializes `'apply_patch("%s", "%s", %s, %d' % (b_name, n_name,
n_sha, n_size)` followed by the pair pieces and the closer. -/
def apply_patch (b_name n_name : String) (n_size : Nat) (n_sha : String)
    (patch_pairs : List String) (abortFlag : Bool) : Except PyErr String :=
  if patch_pairs.length % 2 != 0 || patch_pairs.length == 0 then
    Except.error PyErr.valueError
  else
    Except.ok ("apply_patch(\"" ++ (b_name ++ ("\", \"" ++ (n_name ++
      ("\", " ++ (n_sha ++ (", " ++ (toString n_size ++
        (patchPairsStr patch_pairs ++
          (if abortFlag then ");"
           else ") || " ++ ui_print ("\\\"" ++ (b_name ++
             "\\\" has unexpected contents. assuming fine."))))))))))))

/-- `Edify.mount(fs_type, part_type, device, mnt_pnt)`. -/
def mount (fs_type part_type device mnt_pnt : String) : String :=
  "mount(\"" ++ (fs_type ++ ("\", \"" ++ (part_type ++ ("\", \"" ++
    (device ++ ("\", \"" ++ (mnt_pnt ++ "\");")))))))

/-- `Edify.unmount(mnt_pnt)`. -/
def unmount (mnt_pnt : String) : String :=
  "unmount(\"" ++ (mnt_pnt ++ "\");")

/-- `Edify.delete(file_list)`. -/
def delete (file_list : List String) : String :=
  "delete(" ++
    (String.intercalate ", " (file_list.map (fun i => "\"" ++ (i ++ "\""))) ++
      ");")

/-- `Edify.assert_device(device_list)`. -/
def assert_device (device_list : List String) : String :=
  "assert(" ++
    (String.join (device_list.map (fun d =>
        "getprop(\"ro.product.device\") == \"" ++ (d ++ ("\" || " ++
          ("getprop(\"ro.build.product\") == \"" ++ (d ++ "\" || ")))))) ++
      ("abort(\"This package is for \\\"" ++
        (String.intercalate "," device_list ++
          "\\\" devices; this is a \\\"\" + getprop(\"ro.product.device\") + \"\\\".\"););")))

/-- `Edify.symlink(base_file, link_files)`. -/
def symlink (base_file : String) (link_files : List String) : String :=
  "symlink(\"" ++ (base_file ++ ("\", " ++
    (String.intercalate ", "
        (link_files.map (fun i => "\"" ++ (i ++ "\""))) ++ ");")))

end Edify

/-! ## Diff strategy selection (`DeltaJen.compute_diff`) -/

/-- Python `str.rfind(c)` over a char list: last index or `-1`. -/
def pyRfind (c : Char) (l : List Char) : Int :=
  match l.reverse.findIdx? (fun x => x == c) with
  | none => -1
  | some i => (l.length : Int) - 1 - (i : Int)

/-- `os.path.splitext` (POSIX): split off the extension at the last dot of
the basename, treating leading dots of the basename as part of the root. -/
def splitext (p : String) : String × String :=
  let l := p.data
  let sepIndex := pyRfind '/' l
  let dotIndex := pyRfind '.' l
  if sepIndex < dotIndex then
    let start := (sepIndex + 1).toNat
    let stop := dotIndex.toNat
    if (List.range (stop - start)).all
        (fun k => l.getD (start + k) ' ' == '.') then
      (p, "")
    else (String.mk (l.take stop), String.mk (l.drop stop))
  else (p, "")

/-- The `diff_programs` table of `compute_diff`. -/
def diff_programs : List (String × List String) :=
  [(".gz", ["imgdiff"]), (".img", ["imgdiff"]), (".apk", ["imgdiff", "-z"]),
   (".jar", ["imgdiff", "-z"]), (".zip", ["imgdiff", "-z"])]

/-- `diff_programs.get(ext, ['bsdiff'])`. -/
def diff_programs_get (ext : String) : List String :=
  ((diff_programs.find? (fun p => p.1 == ext)).map Prod.snd).getD ["bsdiff"]

/-- The external collaborators of `compute_diff`: the optional in-process
`bsdiff4.diff` (`None` when the import failed) and the external tool
invocation (command, base bytes, new bytes); the tool yields `none` when it
exits non-zero or reports an error stream (the `err or returncode != 0`
branch), in which case `compute_diff` prints a warning and returns `None`. -/
structure DiffEnv where
  bs_diff : Option (List Nat → List Nat → List Nat)
  runTool : List String → List Nat → List Nat → Option (List Nat)

/-- `DeltaJen.compute_diff(b_file, n_file)`: select the diff command from
the base file's extension; run `bsdiff4.diff` in-process when the command
is `['bsdiff']` and the library is importable, otherwise invoke the
external tool, returning `None` (`none`) on tool failure. -/
def compute_diff (env : DiffEnv) (b_file n_file : FileObj) :
    Option (List Nat) :=
  let cmd := diff_programs_get (splitext b_file.name).2
  match cmd == ["bsdiff"], env.bs_diff with
  | true, some bsd => some (bsd b_file.data n_file.data)
  | _, _ => env.runTool cmd b_file.data n_file.data

example : (splitext "system/app/Foo.apk").2 = ".apk" := by decide
example : (splitext "system/xbin/busybox").2 = "" := by decide
example : (splitext "system/.hidden").2 = "" := by decide
example : (splitext "boot.img").2 = ".img" := by decide

/-! ## The run context

The `DeltaJen` instance state together with the values the `Hooks` device
policy supplies during one run.  The stock `Hooks` class is modelled
field-by-field: `to_copy`/`extra_files`/`pre_flash_script`/
`post_flash_script`/`symlinks` default to `[]`; `assert_device`,
`boot_info` and `system_info` are best-effort parsers of the previous
install script and enter the model as their (cached) results;
`custom_verifying`/`custom_applying` act exactly on the files matched by an
`fnmatch` pattern of `gapps_files`, abstracted as the predicate
`gapps_match`; `custom_patching` returns `None` in the stock class and is
kept as `custom_patch`. -/
structure Ctx where
  to_copy : List String := []
  extra_files : List String := []
  gapps_match : String → Bool := fun _ => false
  custom_patch : String → Option (List Nat) := fun _ => none
  pre_flash : List String := []
  post_flash : List String := []
  devices : List String := []
  boot_info : Option (String × String) := none
  system_info : Option (String × String) := none
  symlinks : List (String × List String) := []
  base_ptr : Catalog := []
  input_ptr : Catalog := []
  input_zip : List ZEntry := []

/-- The `self.part_types` table set up in `DeltaJen.__init__`. -/
def part_types : List (String × String) :=
  [("bml", "BML"), ("ext2", "EMMC"), ("ext3", "EMMC"), ("ext4", "EMMC"),
   ("emmc", "EMMC"), ("f2fs", "EMMC"), ("mtd", "MTD"), ("yaffs2", "MTD"),
   ("vfat", "EMMC")]

/-- `self.part_types[k]`: unguarded dict lookup, `KeyError` when absent. -/
def partTypeGet (k : String) : Except PyErr String :=
  match part_types.find? (fun p => p.1 == k) with
  | some p => Except.ok p.2
  | none => Except.error (PyErr.keyError k)

/-- `DeltaJen.load_files(zip_file)`: keep entries under `system/` or listed
in `extra` (the hook's extra files and copy list, plus `boot.img` when boot
info is available), excluding symlinks. -/
def load_files (extra : List String) (zlist : List ZEntry) : Catalog :=
  zlist.filter (fun e =>
    (hasPfx "system/" e.name || extra.contains e.name) && !(is_symlink e))

/-- The `extra` list assembled in `load_files` from the hooks. -/
def load_extra (ctx : Ctx) : List String :=
  ctx.extra_files ++ ctx.to_copy ++
    (if ctx.boot_info.isSome then ["boot.img"] else [])

/-! ## Change classification (`find_diffs` / `find_removes`) -/

/-- `DeltaJen.find_diffs`: walk the new catalog in iteration order; entries
absent from the base catalog or listed in the hook's copy list are written
to the output archive verbatim; entries present in both with differing
sha1 digests are appended to `to_diff`; equal digests are dropped.
Returns `to_diff` and the updated output archive. -/
def find_diffs (to_copy : List String) (base_ptr : Catalog) :
    Catalog → OutZip → List String × OutZip
  | [], z => ([], z)
  | e :: rest, z =>
    let n_file := get_file_from_ptr e
    match lookupPtr base_ptr e.name with
    | none =>
        find_diffs to_copy base_ptr rest
          (add_to_zip n_file.name n_file.data n_file.time z)
    | some bp =>
        if to_copy.contains e.name then
          find_diffs to_copy base_ptr rest
            (add_to_zip n_file.name n_file.data n_file.time z)
        else if n_file.sha1 != (get_file_from_ptr bp).sha1 then
          let r := find_diffs to_copy base_ptr rest z
          (e.name :: r.1, r.2)
        else
          find_diffs to_copy base_ptr rest z

/-- `DeltaJen.find_removes`: base-catalog paths whose lookup in the new
catalog yields nothing. -/
def find_removes (base_ptr input_ptr : Catalog) : List String :=
  (base_ptr.map ZEntry.name).filter (fun f => (lookupPtr input_ptr f).isNone)

/-- Python truthiness of an optional byte string (`if not p_data`). -/
def pyTruthyBytes : Option (List Nat) → Bool
  | none => false
  | some d => !d.isEmpty

/-- `DeltaJen.create_patches(to_diff)`: for each file, take the hook's
custom patch if truthy, else diff the base and new file objects; then pass
the result to `file_object` and `add_to_zip` under `patch/<name>.p`.
When `compute_diff` returned `None`, `file_object` evaluates `len(None)`,
which raises `TypeError`. -/
def create_patches (env : DiffEnv) (ctx : Ctx) (now : Nat) :
    List String → OutZip → Except PyErr OutZip
  | [], z => Except.ok z
  | f :: rest, z =>
    let p1 := ctx.custom_patch f
    let step : Except PyErr (Option (List Nat)) :=
      if pyTruthyBytes p1 then Except.ok p1
      else
        match dictGet ctx.input_ptr f with
        | Except.error err => Except.error err
        | Except.ok ne =>
          match dictGet ctx.base_ptr f with
          | Except.error err => Except.error err
          | Except.ok be =>
            Except.ok
              (compute_diff env (get_file_from_ptr be) (get_file_from_ptr ne))
    match step with
    | Except.error err => Except.error err
    | Except.ok none => Except.error PyErr.typeError
    | Except.ok (some d) =>
        let p_file := file_object ("patch/" ++ f ++ ".p") d now
        create_patches env ctx now rest
          (add_to_zip p_file.name p_file.data p_file.time z)

/-! ## Script synthesis -/

/-- `DeltaJen.assert_device`: one assert command when the hook reports
device identities, else nothing. -/
def assert_device (ctx : Ctx) : List String :=
  if ctx.devices.isEmpty then []
  else [Edify.assert_device ctx.devices]

/-- `DeltaJen.mount_system`: nothing without system info; otherwise a log
line and a mount command, translating the partition kind through
`part_types` (unguarded lookup). -/
def mount_system (ctx : Ctx) : Except PyErr (List String) :=
  match ctx.system_info with
  | none => Except.ok []
  | some (dev, part) =>
    match partTypeGet part with
    | Except.error err => Except.error err
    | Except.ok pt =>
        Except.ok [Edify.ui_print "Mounting system...",
                   Edify.mount part pt dev "/system"]

/-- `DeltaJen.assert_boot`: boot-image verification via a composite
`partType:device:baseSize:baseSha:newSize:newSha` identifier. -/
def assert_boot (ctx : Ctx) : Except PyErr (List String) :=
  match ctx.boot_info with
  | none => Except.ok []
  | some (dev, kind) =>
    match partTypeGet kind with
    | Except.error err => Except.error err
    | Except.ok pt =>
      match dictGet ctx.base_ptr "boot.img" with
      | Except.error err => Except.error err
      | Except.ok be =>
        match dictGet ctx.input_ptr "boot.img" with
        | Except.error err => Except.error err
        | Except.ok ne =>
          let b_file := get_file_from_ptr be
          let n_file := get_file_from_ptr ne
          Except.ok [Edify.apply_patch_check
            (pt ++ (":" ++ (dev ++ (":" ++ (toString b_file.size ++ (":" ++
              (b_file.sha1 ++ (":" ++ (toString n_file.size ++ (":" ++
                n_file.sha1)))))))))) [] true]

/-- `DeltaJen.flash_boot`: boot-image patch via the same composite
identifier, referencing `patch/boot.img.p`. -/
def flash_boot (ctx : Ctx) : Except PyErr (List String) :=
  match ctx.boot_info with
  | none => Except.ok []
  | some (dev, kind) =>
    match partTypeGet kind with
    | Except.error err => Except.error err
    | Except.ok pt =>
      match dictGet ctx.base_ptr "boot.img" with
      | Except.error err => Except.error err
      | Except.ok be =>
        match dictGet ctx.input_ptr "boot.img" with
        | Except.error err => Except.error err
        | Except.ok ne =>
          let b_file := get_file_from_ptr be
          let n_file := get_file_from_ptr ne
          match Edify.apply_patch
              (pt ++ (":" ++ (dev ++ (":" ++ (toString b_file.size ++ (":" ++
                (b_file.sha1 ++ (":" ++ (toString n_file.size ++ (":" ++
                  n_file.sha1))))))))))
              "-" n_file.size n_file.sha1
              [b_file.sha1, "patch/boot.img.p"] true with
          | Except.error err => Except.error err
          | Except.ok c => Except.ok [c]

/-- `Hooks.custom_verifying`: for `gapps_files`-matched names, a non-fatal
hash check of the file against the base and new digests. -/
def custom_verifying (ctx : Ctx) (f_name : String) :
    Except PyErr (List String) :=
  if ctx.gapps_match f_name then
    match dictGet ctx.input_ptr f_name with
    | Except.error err => Except.error err
    | Except.ok ne =>
      match dictGet ctx.base_ptr f_name with
      | Except.error err => Except.error err
      | Except.ok be =>
        Except.ok [Edify.apply_patch_check ("/" ++ f_name)
          [(get_file_from_ptr be).sha1, (get_file_from_ptr ne).sha1] false]
  else Except.ok []

/-- `Hooks.custom_applying`: for `gapps_files`-matched names, a non-fatal
apply-patch of the file in place. -/
def custom_applying (ctx : Ctx) (f_name : String) :
    Except PyErr (List String) :=
  if ctx.gapps_match f_name then
    match dictGet ctx.input_ptr f_name with
    | Except.error err => Except.error err
    | Except.ok ne =>
      match dictGet ctx.base_ptr f_name with
      | Except.error err => Except.error err
      | Except.ok be =>
        let n_file := get_file_from_ptr ne
        let b_file := get_file_from_ptr be
        match Edify.apply_patch ("/" ++ b_file.name) "-" n_file.size
            n_file.sha1 [b_file.sha1, "patch/" ++ b_file.name ++ ".p"]
            false with
        | Except.error err => Except.error err
        | Except.ok c => Except.ok [c]
  else Except.ok []

/-- The per-file body of the `verify_system` loop: hook override first,
then the boot image, then only paths under `system/` get a hash check;
everything else is skipped. -/
def verify_file (ctx : Ctx) (f_name : String) : Except PyErr (List String) :=
  match custom_verifying ctx f_name with
  | Except.error err => Except.error err
  | Except.ok tmp =>
    if !tmp.isEmpty then Except.ok tmp
    else if f_name == "boot.img" then assert_boot ctx
    else if !(hasPfx "system/" f_name) then Except.ok []
    else
      match dictGet ctx.input_ptr f_name with
      | Except.error err => Except.error err
      | Except.ok ne =>
        match dictGet ctx.base_ptr f_name with
        | Except.error err => Except.error err
        | Except.ok be =>
          Except.ok [Edify.apply_patch_check ("/" ++ f_name)
            [(get_file_from_ptr be).sha1, (get_file_from_ptr ne).sha1] true]

/-- The `verify_system` loop over `to_diff`. -/
def verify_files (ctx : Ctx) : List String → Except PyErr (List String)
  | [] => Except.ok []
  | f :: rest =>
    match verify_file ctx f with
    | Except.error err => Except.error err
    | Except.ok cs =>
      match verify_files ctx rest with
      | Except.error err => Except.error err
      | Except.ok r => Except.ok (cs ++ r)

/-- `DeltaJen.verify_system(to_diff)`. -/
def verify_system (ctx : Ctx) (to_diff : List String) :
    Except PyErr (List String) :=
  match verify_files ctx to_diff with
  | Except.error err => Except.error err
  | Except.ok r =>
      Except.ok (Edify.ui_print "Verifying current system..." :: r)

/-- The per-file body of the `patch_system` loop: hook override first, then
the boot image, then only paths under `system/` get an apply-patch;
everything else is skipped. -/
def patch_file (ctx : Ctx) (f_name : String) : Except PyErr (List String) :=
  match custom_applying ctx f_name with
  | Except.error err => Except.error err
  | Except.ok tmp =>
    if !tmp.isEmpty then Except.ok tmp
    else if f_name == "boot.img" then flash_boot ctx
    else if !(hasPfx "system/" f_name) then Except.ok []
    else
      match dictGet ctx.input_ptr f_name with
      | Except.error err => Except.error err
      | Except.ok ne =>
        match dictGet ctx.base_ptr f_name with
        | Except.error err => Except.error err
        | Except.ok be =>
          let n_file := get_file_from_ptr ne
          let b_file := get_file_from_ptr be
          match Edify.apply_patch ("/" ++ b_file.name) "-" n_file.size
              n_file.sha1 [b_file.sha1, "patch/" ++ b_file.name ++ ".p"]
              true with
          | Except.error err => Except.error err
          | Except.ok c => Except.ok [c]

/-- The `patch_system` loop over `to_diff`. -/
def patch_files (ctx : Ctx) : List String → Except PyErr (List String)
  | [] => Except.ok []
  | f :: rest =>
    match patch_file ctx f with
    | Except.error err => Except.error err
    | Except.ok cs =>
      match patch_files ctx rest with
      | Except.error err => Except.error err
      | Except.ok r => Except.ok (cs ++ r)

/-- `DeltaJen.patch_system(to_diff)`. -/
def patch_system (ctx : Ctx) (to_diff : List String) :
    Except PyErr (List String) :=
  match patch_files ctx to_diff with
  | Except.error err => Except.error err
  | Except.ok r =>
      Except.ok (Edify.ui_print "Patching system files..." :: r)

/-- `DeltaJen.delete_files`: nothing when `find_removes` is empty, else a
log line and one delete command listing every removed path. -/
def delete_files (ctx : Ctx) : List String :=
  let to_remove := find_removes ctx.base_ptr ctx.input_ptr
  if to_remove.isEmpty then []
  else [Edify.ui_print "Removing files...", Edify.delete to_remove]

/-- `DeltaJen.symlink_files`: one symlink command per hook-declared pair. -/
def symlink_files (ctx : Ctx) : List String :=
  ctx.symlinks.map (fun p => Edify.symlink p.1 p.2)

/-- `DeltaJen.unmount_system`: mirrors `mount_system`. -/
def unmount_system (ctx : Ctx) : List String :=
  match ctx.system_info with
  | none => []
  | some _ => [Edify.ui_print "Unmounting system...",
               Edify.unmount "/system"]

/-- The script assembled by `DeltaJen.generate` (lines 689–697 of the
source): assert, mount, verify, pre-flash hook, patch, delete, symlink,
post-flash hook, unmount, in that order. -/
def generate_script (ctx : Ctx) (to_diff : List String) :
    Except PyErr (List String) :=
  match mount_system ctx with
  | Except.error err => Except.error err
  | Except.ok m =>
    match verify_system ctx to_diff with
    | Except.error err => Except.error err
    | Except.ok v =>
      match patch_system ctx to_diff with
      | Except.error err => Except.error err
      | Except.ok p =>
        Except.ok (assert_device ctx ++ m ++ v ++ ctx.pre_flash ++ p ++
          delete_files ctx ++ symlink_files ctx ++ ctx.post_flash ++
          unmount_system ctx)

/-- `DeltaJen.add_updater(script)`: write the joined script at the
conventional path, then copy the update binary through from the input
archive (unguarded `getinfo` lookup). -/
def add_updater (ctx : Ctx) (now : Nat) (script : List String) (z : OutZip) :
    Except PyErr OutZip :=
  let sdata := strBytes (String.intercalate "\n" script)
  let z1 := add_to_zip "META-INF/com/google/android/updater-script" sdata now z
  match dictGet ctx.input_zip "META-INF/com/google/android/update-binary" with
  | Except.error err => Except.error err
  | Except.ok e => Except.ok (add_to_zip e.name e.data e.time z1)

/-- `DeltaJen.generate()` with the catalogs already loaded: classify,
create the patch artifacts, assemble the script, and write the updater
files, returning the final output archive. -/
def generate (env : DiffEnv) (ctx : Ctx) (now : Nat) (z0 : OutZip) :
    Except PyErr OutZip :=
  let r := find_diffs ctx.to_copy ctx.base_ptr ctx.input_ptr z0
  match create_patches env ctx now r.1 r.2 with
  | Except.error err => Except.error err
  | Except.ok z2 =>
    match generate_script ctx r.1 with
    | Except.error err => Except.error err
    | Except.ok script => add_updater ctx now script z2

/-- `DeltaJen.__init__(base_zip, input_zip, output_zip, ...)`: the two
`path.isfile` checks run before anything else; on failure a
`FileNotFound` error is raised with no archive opened or created.  On
success the three archives are opened (recorded as effects, the output
archive being freshly created) and both catalog pointers start out as
`None`. -/
structure DJInit where
  opened : List String
  base_ptr : Option Catalog
  input_ptr : Option Catalog
  deriving Repr, DecidableEq

def dj_init (base_zip input_zip output_zip : String)
    (base_isfile input_isfile : Bool) : Except PyErr DJInit :=
  if !base_isfile then Except.error (PyErr.fileNotFound base_zip)
  else if !input_isfile then Except.error (PyErr.fileNotFound input_zip)
  else Except.ok
    { opened := ["open:" ++ base_zip, "open:" ++ input_zip,
                 "create:" ++ output_zip],
      base_ptr := none, input_ptr := none }

/-! ## Classification predicates and characterization of `find_diffs` -/

/-- The condition under which `find_diffs` copies an entry through:
absent from the base catalog, or listed in the hook's copy list. -/
def copiedP (to_copy : List String) (base : Catalog) (e : ZEntry) : Bool :=
  (lookupPtr base e.name).isNone || to_copy.contains e.name

/-- The condition under which `find_diffs` appends an entry to `to_diff`:
present in the base catalog, not copy-listed, differing sha1 digests. -/
def patchedP (to_copy : List String) (base : Catalog) (e : ZEntry) : Bool :=
  match lookupPtr base e.name with
  | none => false
  | some bp =>
      !(to_copy.contains e.name) &&
        ((get_file_from_ptr e).sha1 != (get_file_from_ptr bp).sha1)

/-- The condition under which `find_diffs` drops an entry as unchanged:
present in the base catalog, not copy-listed, equal sha1 digests. -/
def unchangedP (to_copy : List String) (base : Catalog) (e : ZEntry) : Bool :=
  match lookupPtr base e.name with
  | none => false
  | some bp =>
      !(to_copy.contains e.name) &&
        ((get_file_from_ptr e).sha1 == (get_file_from_ptr bp).sha1)

/-- `patchedP` when the base lookup succeeds. -/
theorem patchedP_some (c : List String) (b : Catalog) (e bp : ZEntry)
    (hb : lookupPtr b e.name = some bp) :
    patchedP c b e =
      (!(c.contains e.name) &&
        ((get_file_from_ptr e).sha1 != (get_file_from_ptr bp).sha1)) := by
  unfold patchedP
  rw [hb]

/-- `patchedP` when the base lookup fails. -/
theorem patchedP_none (c : List String) (b : Catalog) (e : ZEntry)
    (hb : lookupPtr b e.name = none) : patchedP c b e = false := by
  unfold patchedP
  rw [hb]

/-- `unchangedP` when the base lookup succeeds. -/
theorem unchangedP_some (c : List String) (b : Catalog) (e bp : ZEntry)
    (hb : lookupPtr b e.name = some bp) :
    unchangedP c b e =
      (!(c.contains e.name) &&
        ((get_file_from_ptr e).sha1 == (get_file_from_ptr bp).sha1)) := by
  unfold unchangedP
  rw [hb]

/-- `unchangedP` when the base lookup fails. -/
theorem unchangedP_none (c : List String) (b : Catalog) (e : ZEntry)
    (hb : lookupPtr b e.name = none) : unchangedP c b e = false := by
  unfold unchangedP
  rw [hb]

/-- `find_diffs` returns exactly the names of the new-catalog entries
satisfying `patchedP`, in catalog order. -/
theorem find_diffs_fst (c : List String) (b : Catalog) (l : Catalog)
    (z : OutZip) :
    (find_diffs c b l z).1 = (l.filter (patchedP c b)).map ZEntry.name := by
  induction l generalizing z with
  | nil => rfl
  | cons e rest ih =>
    rw [List.filter_cons]
    unfold find_diffs
    cases hb : lookupPtr b e.name with
    | none =>
      rw [patchedP_none c b e hb]
      simp only [Bool.false_eq_true, if_false]
      exact ih _
    | some bp =>
      rw [patchedP_some c b e bp hb]
      cases hc : c.contains e.name with
      | true =>
        simp only [hc, Bool.not_true, Bool.false_and, Bool.false_eq_true,
          if_false, if_true]
        exact ih _
      | false =>
        cases hs :
            (get_file_from_ptr e).sha1 != (get_file_from_ptr bp).sha1 with
        | true =>
          simp only [hc, hs, Bool.not_false, Bool.true_and, if_true,
            Bool.false_eq_true, if_false, List.map_cons]
          rw [ih]
        | false =>
          simp only [hc, hs, Bool.not_false, Bool.true_and,
            Bool.false_eq_true, if_false]
          exact ih _

/-- Membership in the name image of a filtered catalog. -/
theorem mem_filter_map_name (l : Catalog) (p : ZEntry → Bool) (f : String) :
    f ∈ (l.filter p).map ZEntry.name ↔
      ∃ e, (e ∈ l ∧ p e = true) ∧ e.name = f := by
  simp [List.mem_map, List.mem_filter]

/-- In a catalog with no duplicate names, entries are determined by their
name. -/
theorem entry_unique (l : Catalog) (hn : (l.map ZEntry.name).Nodup)
    (e₁ e₂ : ZEntry) (h1 : e₁ ∈ l) (h2 : e₂ ∈ l)
    (hname : e₁.name = e₂.name) : e₁ = e₂ := by
  induction l with
  | nil => cases h1
  | cons a rest ih =>
    rw [List.map_cons, List.nodup_cons] at hn
    rcases List.mem_cons.mp h1 with rfl | h1'
    · rcases List.mem_cons.mp h2 with rfl | h2'
      · rfl
      · exact absurd (hname ▸ List.mem_map_of_mem ZEntry.name h2') hn.1
    · rcases List.mem_cons.mp h2 with rfl | h2'
      · exact absurd (hname ▸ List.mem_map_of_mem ZEntry.name h1') hn.1
      · exact ih hn.2 h1' h2'

/-- Every catalog entry satisfies exactly one of the three classification
predicates. -/
theorem classify_cases (c : List String) (b : Catalog) (e : ZEntry) :
    (copiedP c b e || patchedP c b e || unchangedP c b e) = true ∧
    (copiedP c b e && patchedP c b e) = false ∧
    (copiedP c b e && unchangedP c b e) = false ∧
    (patchedP c b e && unchangedP c b e) = false := by
  cases hb : lookupPtr b e.name with
  | none =>
    have h1 : copiedP c b e = true := by unfold copiedP; rw [hb]; rfl
    rw [h1, patchedP_none c b e hb, unchangedP_none c b e hb]
    exact ⟨rfl, rfl, rfl, rfl⟩
  | some bp =>
    have h1 : copiedP c b e = c.contains e.name := by
      unfold copiedP; rw [hb]; rfl
    rw [h1, patchedP_some c b e bp hb, unchangedP_some c b e bp hb]
    cases hc : c.contains e.name <;>
      cases hsha :
          (get_file_from_ptr e).sha1 == (get_file_from_ptr bp).sha1 <;>
        simp [bne, hsha]

/-- A name is absent from a catalog's lookup exactly when it is not among
the catalog's names. -/
theorem lookup_isNone_iff (l : Catalog) (f : String) :
    (lookupPtr l f).isNone = true ↔ f ∉ l.map ZEntry.name := by
  rw [Option.isNone_iff_eq_none, lookupPtr, List.find?_eq_none]
  simp [List.mem_map]

/-- Claim C1, bundled: the copied set (paths absent from base or listed in
the copy override), the patch set returned by `find_diffs`, and the
unchanged remainder are pairwise disjoint and together are the new
catalog's path set; and `find_removes` is exactly the base paths absent
from the new catalog. -/
def C1Prop (to_copy : List String) (base input : Catalog) (z : OutZip)
    (f : String) : Prop :=
  let copied := (input.filter (copiedP to_copy base)).map ZEntry.name
  let toPatch := (find_diffs to_copy base input z).1
  let unchanged := (input.filter (unchangedP to_copy base)).map ZEntry.name
  ((f ∈ copied ∨ f ∈ toPatch ∨ f ∈ unchanged) ↔ f ∈ input.map ZEntry.name)
  ∧ ¬(f ∈ copied ∧ f ∈ toPatch)
  ∧ ¬(f ∈ copied ∧ f ∈ unchanged)
  ∧ ¬(f ∈ toPatch ∧ f ∈ unchanged)
  ∧ (f ∈ find_removes base input ↔
      (f ∈ base.map ZEntry.name ∧ f ∉ input.map ZEntry.name))

/-- C1: classification partitions the new catalog's paths, and
`find_removes` returns exactly the base paths absent from the new
catalog. -/
theorem deltajen_C1 (to_copy : List String) (base input : Catalog)
    (z : OutZip) (hn : (input.map ZEntry.name).Nodup) :
    ∀ f, C1Prop to_copy base input z f := by
  intro f
  unfold C1Prop
  rw [find_diffs_fst]
  have hmem := fun p => mem_filter_map_name input p f
  refine ⟨?_, ?_, ?_, ?_, ?_⟩
  · constructor
    · rintro (h | h | h) <;>
      · obtain ⟨e, ⟨he, _⟩, hf⟩ := (hmem _).mp h
        exact hf ▸ List.mem_map_of_mem ZEntry.name he
    · intro h
      obtain ⟨e, he, hf⟩ := List.mem_map.mp h
      obtain ⟨h1, _, _, _⟩ := classify_cases to_copy base e
      rcases Bool.or_eq_true_iff.mp h1 with h' | h'
      rcases Bool.or_eq_true_iff.mp h' with h'' | h''
      · exact Or.inl ((hmem _).mpr ⟨e, ⟨he, h''⟩, hf⟩)
      · exact Or.inr (Or.inl ((hmem _).mpr ⟨e, ⟨he, h''⟩, hf⟩))
      · exact Or.inr (Or.inr ((hmem _).mpr ⟨e, ⟨he, h'⟩, hf⟩))
  · rintro ⟨h1, h2⟩
    obtain ⟨e₁, ⟨he₁, hp₁⟩, hf₁⟩ := (hmem _).mp h1
    obtain ⟨e₂, ⟨he₂, hp₂⟩, hf₂⟩ := (hmem _).mp h2
    cases entry_unique input hn e₁ e₂ he₁ he₂ (hf₁.trans hf₂.symm)
    have := (classify_cases to_copy base e₁).2.1
    rw [hp₁, hp₂] at this
    simp at this
  · rintro ⟨h1, h2⟩
    obtain ⟨e₁, ⟨he₁, hp₁⟩, hf₁⟩ := (hmem _).mp h1
    obtain ⟨e₂, ⟨he₂, hp₂⟩, hf₂⟩ := (hmem _).mp h2
    cases entry_unique input hn e₁ e₂ he₁ he₂ (hf₁.trans hf₂.symm)
    have := (classify_cases to_copy base e₁).2.2.1
    rw [hp₁, hp₂] at this
    simp at this
  · rintro ⟨h1, h2⟩
    obtain ⟨e₁, ⟨he₁, hp₁⟩, hf₁⟩ := (hmem _).mp h1
    obtain ⟨e₂, ⟨he₂, hp₂⟩, hf₂⟩ := (hmem _).mp h2
    cases entry_unique input hn e₁ e₂ he₁ he₂ (hf₁.trans hf₂.symm)
    have := (classify_cases to_copy base e₁).2.2.2
    rw [hp₁, hp₂] at this
    simp at this
  · rw [find_removes, List.mem_filter, lookup_isNone_iff]

def c1base : Catalog :=
  [⟨"system/a", [0], 5, 0⟩, ⟨"system/r", [1], 5, 0⟩]

def c1input : Catalog :=
  [⟨"system/a", [2], 6, 0⟩, ⟨"system/n", [3], 6, 0⟩]

theorem deltajen_C1_witness :
    C1Prop ["system/o"] c1base c1input ⟨8, []⟩ "system/a" :=
  deltajen_C1 ["system/o"] c1base c1input ⟨8, []⟩ (by decide) "system/a"

/-! ## C7: digest stability and mod-time independence -/

/-- C7: hashing identical bytes yields identical digests, and a path whose
content bytes are identical in base and new catalogs stays out of
`find_diffs`'s patch set whatever the two modification times are. -/
theorem deltajen_C7 (to_copy : List String) (base input : Catalog)
    (z : OutZip) (e bp : ZEntry) (n1 n2 : String) (t1 t2 : Nat)
    (hn : (input.map ZEntry.name).Nodup)
    (he : e ∈ input) (hb : lookupPtr base e.name = some bp)
    (hd : e.data = bp.data) :
    (file_object n1 e.data t1).sha1 = (file_object n2 bp.data t2).sha1 ∧
    e.name ∉ (find_diffs to_copy base input z).1 := by
  have hsha : sha1hexdigest e.data = sha1hexdigest bp.data := by rw [hd]
  constructor
  · simpa [file_object] using hsha
  · rw [find_diffs_fst]
    intro hmem
    obtain ⟨e', ⟨he', hp'⟩, hf'⟩ := (mem_filter_map_name input _ _).mp hmem
    have heq : e' = e := entry_unique input hn e' e he' he (by rw [hf'])
    subst heq
    rw [patchedP_some to_copy base e' bp hb] at hp'
    have hgf : (get_file_from_ptr e').sha1 = (get_file_from_ptr bp).sha1 := by
      simpa [get_file_from_ptr, file_object] using hsha
    rw [hgf] at hp'
    simp [bne] at hp'

def c7base : Catalog := [⟨"system/a", [5], 99, 0⟩]

def c7input : Catalog := [⟨"system/a", [5], 1, 0⟩]

theorem deltajen_C7_witness :
    (file_object "x" [5] 0).sha1 = (file_object "y" [5] 7).sha1 ∧
    "system/a" ∉ (find_diffs [] c7base c7input ⟨8, []⟩).1 :=
  deltajen_C7 [] c7base c7input ⟨8, []⟩ ⟨"system/a", [5], 1, 0⟩
    ⟨"system/a", [5], 99, 0⟩ "x" "y" 0 7 (by decide) (by decide) rfl rfl

/-! ## C8: missing input archives abort construction -/

/-- C8: when either input path is not a file, `__init__` raises its
file-not-found error before any archive is opened or created: the result
is the error alone — no output archive, no catalog. -/
theorem deltajen_C8 (base_zip input_zip output_zip : String)
    (base_isfile input_isfile : Bool)
    (h : base_isfile = false ∨ input_isfile = false) :
    dj_init base_zip input_zip output_zip base_isfile input_isfile =
      Except.error (PyErr.fileNotFound
        (if base_isfile then input_zip else base_zip)) := by
  rcases h with h | h
  · subst h; rfl
  · subst h; cases base_isfile <;> rfl

theorem deltajen_C8_witness :
    dj_init "base.zip" "new.zip" "out.zip" false true =
      Except.error (PyErr.fileNotFound "base.zip") :=
  deltajen_C8 "base.zip" "new.zip" "out.zip" false true (Or.inl rfl)

/-! ## C9: the partition-kind table and `KeyError` on unknown kinds -/

/-- C9: the translation table has exactly the nine kinds, each mapped to
its device class, and `mount_system`, `assert_boot` and `flash_boot` raise
`KeyError` (instead of producing an operation) for any hook-reported kind
outside the table. -/
theorem deltajen_C9 (ctx : Ctx) (dev k : String)
    (hs : ctx.system_info = some (dev, k))
    (hb : ctx.boot_info = some (dev, k))
    (hk : k ∉ part_types.map Prod.fst) :
    part_types.map Prod.fst =
      ["bml", "ext2", "ext3", "ext4", "emmc", "f2fs", "mtd", "yaffs2",
       "vfat"]
    ∧ partTypeGet "bml" = Except.ok "BML"
    ∧ partTypeGet "ext2" = Except.ok "EMMC"
    ∧ partTypeGet "ext3" = Except.ok "EMMC"
    ∧ partTypeGet "ext4" = Except.ok "EMMC"
    ∧ partTypeGet "emmc" = Except.ok "EMMC"
    ∧ partTypeGet "f2fs" = Except.ok "EMMC"
    ∧ partTypeGet "mtd" = Except.ok "MTD"
    ∧ partTypeGet "yaffs2" = Except.ok "MTD"
    ∧ partTypeGet "vfat" = Except.ok "EMMC"
    ∧ mount_system ctx = Except.error (PyErr.keyError k)
    ∧ assert_boot ctx = Except.error (PyErr.keyError k)
    ∧ flash_boot ctx = Except.error (PyErr.keyError k) := by
  have hfind : part_types.find? (fun p => p.1 == k) = none := by
    rw [List.find?_eq_none]
    intro p hp
    simp only [beq_iff_eq]
    intro heq
    exact hk (heq ▸ List.mem_map_of_mem Prod.fst hp)
  have hpt : partTypeGet k = Except.error (PyErr.keyError k) := by
    unfold partTypeGet
    rw [hfind]
  refine ⟨rfl, rfl, rfl, rfl, rfl, rfl, rfl, rfl, rfl, rfl, ?_, ?_, ?_⟩
  · simp [mount_system, hs, hpt]
  · simp [assert_boot, hb, hpt]
  · simp [flash_boot, hb, hpt]

def ctxC9 : Ctx :=
  { system_info := some ("/dev/block/x", "btrfs"),
    boot_info := some ("/dev/block/x", "btrfs") }

theorem deltajen_C9_witness :
    part_types.map Prod.fst =
      ["bml", "ext2", "ext3", "ext4", "emmc", "f2fs", "mtd", "yaffs2",
       "vfat"]
    ∧ partTypeGet "bml" = Except.ok "BML"
    ∧ partTypeGet "ext2" = Except.ok "EMMC"
    ∧ partTypeGet "ext3" = Except.ok "EMMC"
    ∧ partTypeGet "ext4" = Except.ok "EMMC"
    ∧ partTypeGet "emmc" = Except.ok "EMMC"
    ∧ partTypeGet "f2fs" = Except.ok "EMMC"
    ∧ partTypeGet "mtd" = Except.ok "MTD"
    ∧ partTypeGet "yaffs2" = Except.ok "MTD"
    ∧ partTypeGet "vfat" = Except.ok "EMMC"
    ∧ mount_system ctxC9 = Except.error (PyErr.keyError "btrfs")
    ∧ assert_boot ctxC9 = Except.error (PyErr.keyError "btrfs")
    ∧ flash_boot ctxC9 = Except.error (PyErr.keyError "btrfs") :=
  deltajen_C9 ctxC9 "/dev/block/x" "btrfs" rfl rfl (by decide)

/-! ## C2: a failed structure-aware diff crashes `create_patches`

`compute_diff` does treat a tool failure as a warning and returns `None`;
but `create_patches` then feeds that `None` straight into `file_object`,
whose `len(data)` raises `TypeError`, aborting the whole run instead of
skipping the file. -/

/-- A diff environment in which the external tool always fails (non-zero
exit or error stream) while the in-process generic differ is available. -/
def envC2 : DiffEnv :=
  { bs_diff := some (fun b n => b ++ n), runTool := fun _ _ _ => none }

def ctxC2 : Ctx :=
  { base_ptr := [⟨"system/app/A.apk", [1], 0, 0⟩],
    input_ptr := [⟨"system/app/A.apk", [2], 0, 0⟩] }

/-- C2 (the code at the failing input): for a `toPatch` file
`system/app/A.apk` whose `imgdiff` invocation fails, `compute_diff`
yields the null patch, and `create_patches` — far from skipping the file
and continuing — raises `TypeError` from `len(None)` in `file_object`. -/
theorem deltajen_C2_code_bug :
    compute_diff envC2 (get_file_from_ptr ⟨"system/app/A.apk", [1], 0, 0⟩)
        (get_file_from_ptr ⟨"system/app/A.apk", [2], 0, 0⟩) = none
    ∧ create_patches envC2 ctxC2 0 ["system/app/A.apk"] ⟨8, []⟩ =
        Except.error PyErr.typeError :=
  ⟨rfl, rfl⟩

/-! ## C3: diff-strategy selection by extension -/

/-- Modelled from the spec: the claimed strategy selection, in which the
allow-listed extensions prefer the structure-aware tool *when it is
available*, and every extension falls back to the generic binary diff
when it is not. -/
def spec_select_diff (ext : String) (structureToolAvailable : Bool) :
    List String :=
  if (ext == ".gz" || ext == ".img" || ext == ".apk" || ext == ".jar" ||
      ext == ".zip") && structureToolAvailable then
    (if ext == ".gz" || ext == ".img" then ["imgdiff"]
     else ["imgdiff", "-z"])
  else ["bsdiff"]

/-- C3 counterexample: with the structure-aware tool unavailable (every
invocation fails) and the generic differ available, the spec's selection
demands `bsdiff` for `.apk`, but the code still selects `imgdiff -z` and
`compute_diff` produces no patch at all rather than the generic diff
(which here would be `[7]`). -/
theorem deltajen_C3_counterexample :
    spec_select_diff ".apk" false = ["bsdiff"]
    ∧ diff_programs_get (splitext "system/app/A.apk").2 = ["imgdiff", "-z"]
    ∧ compute_diff
        { bs_diff := some (fun _ _ => [7]), runTool := fun _ _ _ => none }
        (file_object "system/app/A.apk" [1] 0)
        (file_object "system/app/A.apk" [2] 0) = none :=
  ⟨rfl, rfl, rfl⟩

/-- `==` on strings is symmetric as a boolean. -/
theorem beq_symm_str (a b : String) : (a == b) = (b == a) := by
  cases h1 : a == b <;> cases h2 : b == a <;> simp_all [beq_iff_eq]

/-- Closed-form view of `diff_programs.get(ext, ['bsdiff'])`. -/
theorem diff_programs_get_eq (ext : String) :
    diff_programs_get ext =
      if ext == ".gz" || ext == ".img" then ["imgdiff"]
      else if ext == ".apk" || ext == ".jar" || ext == ".zip" then
        ["imgdiff", "-z"]
      else ["bsdiff"] := by
  unfold diff_programs_get diff_programs
  simp only [List.find?]
  rw [beq_symm_str ".gz" ext, beq_symm_str ".img" ext,
    beq_symm_str ".apk" ext, beq_symm_str ".jar" ext,
    beq_symm_str ".zip" ext]
  cases h1 : ext == ".gz" <;> cases h2 : ext == ".img" <;>
    cases h3 : ext == ".apk" <;> cases h4 : ext == ".jar" <;>
      cases h5 : ext == ".zip" <;> simp [h1, h2, h3, h4, h5]

/-- C3 as amended: extension membership in the fixed allow-list alone
selects the structure-aware command (`-z` for the archive bundles),
regardless of that tool's availability; every other extension uses the
generic `bsdiff`, in-process exactly when the `bsdiff4` library is
importable, and as the external `bsdiff` tool otherwise. -/
theorem deltajen_C3_amended (env : DiffEnv) (b n : FileObj) :
    compute_diff env b n =
      (let ext := (splitext b.name).2
       if ext == ".gz" || ext == ".img" || ext == ".apk" || ext == ".jar" ||
           ext == ".zip" then
         env.runTool
           (if ext == ".gz" || ext == ".img" then ["imgdiff"]
            else ["imgdiff", "-z"]) b.data n.data
       else
         match env.bs_diff with
         | some bsd => some (bsd b.data n.data)
         | none => env.runTool ["bsdiff"] b.data n.data) := by
  unfold compute_diff
  rw [diff_programs_get_eq]
  cases h1 : (splitext b.name).2 == ".gz" <;>
    cases h2 : (splitext b.name).2 == ".img" <;>
      cases h3 : (splitext b.name).2 == ".apk" <;>
        cases h4 : (splitext b.name).2 == ".jar" <;>
          cases h5 : (splitext b.name).2 == ".zip" <;>
            simp [h1, h2, h3, h4, h5] <;>
              cases env.bs_diff <;> rfl

/-! ## C6: the serialized parameter order of apply-patch statements -/

/-- Modelled from the spec: the claimed apply-patch statement shape, with
`newSize` serialized before `newHash`. -/
def spec_apply_patch_stmt (b_name n_name : String) (n_size : Nat)
    (n_sha p_sha p_ref : String) : String :=
  "apply_patch(\"" ++ (b_name ++ ("\", \"" ++ (n_name ++ ("\", " ++
    (toString n_size ++ (", " ++ (n_sha ++
      ((", " ++ (p_sha ++ (", package_extract_file(\"" ++ (p_ref ++ "\")"))))
        ++ ");"))))))))

/-- C6 counterexample: at a concrete call, `Edify.apply_patch` serializes
the new file's *hash* before its *size* (`"…", aaa, 1000, …`), which is
not the spec's `(…, newSize, newHash, …)` order. -/
theorem deltajen_C6_counterexample :
    Edify.apply_patch "/b.apk" "-" 1000 "aaa" ["bbb", "patch/b.p"] true =
      Except.ok
        "apply_patch(\"/b.apk\", \"-\", aaa, 1000, bbb, package_extract_file(\"patch/b.p\"));"
    ∧ spec_apply_patch_stmt "/b.apk" "-" 1000 "aaa" "bbb" "patch/b.p" =
      "apply_patch(\"/b.apk\", \"-\", 1000, aaa, bbb, package_extract_file(\"patch/b.p\"));"
    ∧ ("apply_patch(\"/b.apk\", \"-\", aaa, 1000, bbb, package_extract_file(\"patch/b.p\"));" ≠
        "apply_patch(\"/b.apk\", \"-\", 1000, aaa, bbb, package_extract_file(\"patch/b.p\"));") :=
  ⟨rfl, rfl, by decide⟩

/-- C6 as amended: every single-pair apply-patch statement (the only form
the engine emits) serializes its parameters in the fixed order basePath,
newPath-or-"-", newHash, newSize, then the baseHash / patch-reference
pair. -/
theorem deltajen_C6_amended (b_name n_name : String) (n_size : Nat)
    (n_sha p_sha p_ref : String) :
    Edify.apply_patch b_name n_name n_size n_sha [p_sha, p_ref] true =
      Except.ok ("apply_patch(\"" ++ (b_name ++ ("\", \"" ++ (n_name ++
        ("\", " ++ (n_sha ++ (", " ++ (toString n_size ++
          ((", " ++ (p_sha ++ (", package_extract_file(\"" ++
            (p_ref ++ "\")")))) ++ ");"))))))))) := by
  unfold Edify.apply_patch
  rw [if_neg (by simp)]
  rfl

/-! ## C5: skipped non-system paths still get patch artifacts -/

/-- The per-file verify body emits nothing for an un-overridden,
non-boot, non-system path. -/
theorem verify_file_skip (ctx : Ctx) (f : String)
    (hov : ctx.gapps_match f = false) (hboot : f ≠ "boot.img")
    (hsys : hasPfx "system/" f = false) :
    verify_file ctx f = Except.ok [] := by
  simp [verify_file, custom_verifying, hov, hboot, hsys]

/-- The per-file patch body emits nothing for an un-overridden,
non-boot, non-system path. -/
theorem patch_file_skip (ctx : Ctx) (f : String)
    (hov : ctx.gapps_match f = false) (hboot : f ≠ "boot.img")
    (hsys : hasPfx "system/" f = false) :
    patch_file ctx f = Except.ok [] := by
  simp [patch_file, custom_applying, hov, hboot, hsys]

/-- `create_patches` only ever appends to the output archive. -/
theorem create_patches_mono (env : DiffEnv) (ctx : Ctx) (now : Nat)
    (l : List String) (z z' : OutZip)
    (h : create_patches env ctx now l z = Except.ok z') :
    ∀ x ∈ z.entries, x ∈ z'.entries := by
  induction l generalizing z with
  | nil =>
    rw [create_patches] at h
    cases h
    exact fun x hx => hx
  | cons g rest ih =>
    rw [create_patches] at h
    dsimp only at h
    split at h
    · cases h
    · cases h
    · intro x hx
      exact ih _ h x (List.mem_append_left _ hx)

/-- Every processed file's `patch/<name>.p` artifact is present in the
final archive of a successful `create_patches` run. -/
theorem create_patches_artifact (env : DiffEnv) (ctx : Ctx) (now : Nat)
    (l : List String) (z z' : OutZip)
    (h : create_patches env ctx now l z = Except.ok z')
    (f : String) (hf : f ∈ l) :
    ("patch/" ++ f ++ ".p") ∈ z'.entries.map OutEntry.name := by
  induction l generalizing z with
  | nil => cases hf
  | cons g rest ih =>
    rw [create_patches] at h
    dsimp only at h
    split at h
    · cases h
    · cases h
    · rename_i d hd
      rcases List.mem_cons.mp hf with rfl | hf'
      · have hstart :
            ({ name := "patch/" ++ f ++ ".p", data := d, time := now,
               extAttr := 0o644 <<< 16,
               compressType := z.compression } : OutEntry) ∈
              (add_to_zip (file_object ("patch/" ++ f ++ ".p") d now).name
                (file_object ("patch/" ++ f ++ ".p") d now).data
                (file_object ("patch/" ++ f ++ ".p") d now).time z).entries :=
          List.mem_append_right _ (List.mem_singleton.mpr rfl)
        have hmem := create_patches_mono env ctx now rest _ _ h _ hstart
        exact List.mem_map.mpr ⟨_, hmem, rfl⟩
      · exact ih _ h hf'

/-- C5: a `toPatch` entry with no device-policy override, not named
`boot.img`, and not under `system/` gets no verify statement and no patch
statement, yet its `patch/<path>.p` artifact is still written to the
output archive. -/
theorem deltajen_C5 (env : DiffEnv) (ctx : Ctx) (now : Nat) (f : String)
    (to_diff : List String) (z z' : OutZip)
    (hf : f ∈ to_diff) (hov : ctx.gapps_match f = false)
    (hboot : f ≠ "boot.img") (hsys : hasPfx "system/" f = false)
    (hrun : create_patches env ctx now to_diff z = Except.ok z') :
    verify_file ctx f = Except.ok [] ∧ patch_file ctx f = Except.ok [] ∧
      ("patch/" ++ f ++ ".p") ∈ z'.entries.map OutEntry.name :=
  ⟨verify_file_skip ctx f hov hboot hsys,
   patch_file_skip ctx f hov hboot hsys,
   create_patches_artifact env ctx now to_diff z z' hrun f hf⟩

def envC5 : DiffEnv :=
  { bs_diff := some (fun _ _ => [9]), runTool := fun _ _ _ => none }

def ctxC5 : Ctx :=
  { base_ptr := [⟨"acme/kernel", [1], 0, 0⟩],
    input_ptr := [⟨"acme/kernel", [2], 0, 0⟩] }

def c5zip : OutZip :=
  match create_patches envC5 ctxC5 0 ["acme/kernel"] ⟨8, []⟩ with
  | Except.ok z => z
  | Except.error _ => ⟨0, []⟩

theorem deltajen_C5_witness :
    verify_file ctxC5 "acme/kernel" = Except.ok [] ∧
    patch_file ctxC5 "acme/kernel" = Except.ok [] ∧
    ("patch/" ++ "acme/kernel" ++ ".p") ∈ c5zip.entries.map OutEntry.name :=
  deltajen_C5 envC5 ctxC5 0 "acme/kernel" ["acme/kernel"] ⟨8, []⟩ c5zip
    (by decide) rfl (by decide) rfl rfl

/-! ## C10: fixed permissions and compression on every written entry -/

/-- The attribute invariant of an output archive. -/
def zipOk (c : Nat) (z : OutZip) : Prop :=
  z.compression = c ∧
    ∀ e ∈ z.entries, e.extAttr = 0o644 <<< 16 ∧ e.compressType = c

theorem zipOk_add (c : Nat) (nm : String) (d : List Nat) (t : Nat)
    (z : OutZip) (h : zipOk c z) : zipOk c (add_to_zip nm d t z) := by
  obtain ⟨hc, he⟩ := h
  refine ⟨hc, ?_⟩
  intro e hm
  rcases List.mem_append.mp hm with hm' | hm'
  · exact he e hm'
  · rcases List.mem_singleton.mp hm' with rfl
    exact ⟨rfl, hc⟩

theorem zipOk_find_diffs (c : Nat) (tc : List String) (b : Catalog)
    (l : Catalog) (z : OutZip) (h : zipOk c z) :
    zipOk c (find_diffs tc b l z).2 := by
  induction l generalizing z with
  | nil => exact h
  | cons e rest ih =>
    unfold find_diffs
    cases hb : lookupPtr b e.name with
    | none => exact ih _ (zipOk_add c _ _ _ z h)
    | some bp =>
      cases hc : tc.contains e.name with
      | true =>
        simp only [if_true]
        exact ih _ (zipOk_add c _ _ _ z h)
      | false =>
        simp only [Bool.false_eq_true, if_false]
        cases hs :
            (get_file_from_ptr e).sha1 != (get_file_from_ptr bp).sha1 with
        | true =>
          simp only [if_true]
          exact ih _ h
        | false =>
          simp only [Bool.false_eq_true, if_false]
          exact ih _ h

theorem zipOk_create_patches (c : Nat) (env : DiffEnv) (ctx : Ctx)
    (now : Nat) (l : List String) (z z' : OutZip)
    (h : create_patches env ctx now l z = Except.ok z') (hz : zipOk c z) :
    zipOk c z' := by
  induction l generalizing z with
  | nil =>
    rw [create_patches] at h
    cases h
    exact hz
  | cons g rest ih =>
    rw [create_patches] at h
    dsimp only at h
    split at h
    · cases h
    · cases h
    · exact ih _ h (zipOk_add c _ _ _ z hz)

theorem zipOk_add_updater (c : Nat) (ctx : Ctx) (now : Nat)
    (script : List String) (z z' : OutZip)
    (h : add_updater ctx now script z = Except.ok z') (hz : zipOk c z) :
    zipOk c z' := by
  rw [add_updater] at h
  try dsimp only at h
  split at h
  · cases h
  · cases h
    exact zipOk_add c _ _ _ _ (zipOk_add c _ _ _ z hz)

/-- C10: every entry a successful `generate` run writes into a fresh
output archive carries permission bits `0o644 << 16` and the archive's
compression type, whatever the source entries' own metadata said. -/
theorem deltajen_C10 (env : DiffEnv) (ctx : Ctx) (now : Nat)
    (z0 z' : OutZip) (hz : z0.entries = [])
    (hgen : generate env ctx now z0 = Except.ok z') :
    ∀ e ∈ z'.entries,
      e.extAttr = 0o644 <<< 16 ∧ e.compressType = z0.compression := by
  have h0 : zipOk z0.compression z0 := by
    refine ⟨rfl, ?_⟩
    rw [hz]
    intro e he
    cases he
  rw [generate] at hgen
  try dsimp only at hgen
  split at hgen
  · cases hgen
  · rename_i z2 hcp
    split at hgen
    · cases hgen
    · rename_i script hgs
      have h1 := zipOk_find_diffs z0.compression ctx.to_copy ctx.base_ptr
        ctx.input_ptr z0 h0
      have h2 := zipOk_create_patches z0.compression env ctx now _ _ _ hcp h1
      exact (zipOk_add_updater z0.compression ctx now script _ _ hgen h2).2

def envC10 : DiffEnv :=
  { bs_diff := some (fun b n => b ++ n), runTool := fun _ _ _ => none }

def ctxC10 : Ctx :=
  { base_ptr := [],
    input_ptr := [⟨"system/x", [1], 3, 0o100755 <<< 16⟩],
    input_zip :=
      [⟨"META-INF/com/google/android/update-binary", [9], 1, 0⟩] }

def c10zip : OutZip :=
  match generate envC10 ctxC10 0 ⟨8, []⟩ with
  | Except.ok z => z
  | Except.error _ => ⟨0, []⟩

theorem deltajen_C10_witness :
    (⟨"system/x", [1], 3, 0o644 <<< 16, 8⟩ : OutEntry).extAttr =
        0o644 <<< 16 ∧
      (⟨"system/x", [1], 3, 0o644 <<< 16, 8⟩ : OutEntry).compressType = 8 :=
  deltajen_C10 envC10 ctxC10 0 ⟨8, []⟩ c10zip rfl rfl
    ⟨"system/x", [1], 3, 0o644 <<< 16, 8⟩ (by decide)

/-! ## C4: script phase ordering

The operation kind of a serialized command is recovered from its fixed
textual head. -/

/-- The command is a mount operation. -/
def isMountCmd (s : String) : Bool := hasPfx "mount(\"" s

/-- The command is a verify operation (`apply_patch_check`). -/
def isVerifyCmd (s : String) : Bool := hasPfx "apply_patch_check(\"" s

/-- The command is a patch operation (`apply_patch`, whose head is
distinct from `apply_patch_check(` at the 12th character). -/
def isPatchCmd (s : String) : Bool := hasPfx "apply_patch(\"" s

/-- The command is a delete operation. -/
def isDeleteCmd (s : String) : Bool := hasPfx "delete(" s

/-- The command is an unmount operation. -/
def isUnmountCmd (s : String) : Bool := hasPfx "unmount(\"" s

/-- A `ui_print` command is none of the five tracked operations. -/
theorem kinds_ui (m : String) :
    isMountCmd (Edify.ui_print m) = false ∧
    isVerifyCmd (Edify.ui_print m) = false ∧
    isPatchCmd (Edify.ui_print m) = false ∧
    isDeleteCmd (Edify.ui_print m) = false ∧
    isUnmountCmd (Edify.ui_print m) = false := by
  unfold Edify.ui_print isMountCmd isVerifyCmd isPatchCmd isDeleteCmd
    isUnmountCmd
  exact ⟨hasPfx_head_false _ _ _ (by decide),
    hasPfx_head_false _ _ _ (by decide),
    hasPfx_head_false _ _ _ (by decide),
    hasPfx_head_false _ _ _ (by decide),
    hasPfx_head_false _ _ _ (by decide)⟩

/-- An `assert` command is none of the five tracked operations. -/
theorem kinds_assert (devs : List String) :
    isMountCmd (Edify.assert_device devs) = false ∧
    isVerifyCmd (Edify.assert_device devs) = false ∧
    isPatchCmd (Edify.assert_device devs) = false ∧
    isDeleteCmd (Edify.assert_device devs) = false ∧
    isUnmountCmd (Edify.assert_device devs) = false := by
  unfold Edify.assert_device isMountCmd isVerifyCmd isPatchCmd isDeleteCmd
    isUnmountCmd
  exact ⟨hasPfx_head_false _ _ _ (by decide),
    hasPfx_head_false _ _ _ (by decide),
    hasPfx_head_false _ _ _ (by decide),
    hasPfx_head_false _ _ _ (by decide),
    hasPfx_head_false _ _ _ (by decide)⟩

/-- A `symlink` command is none of the five tracked operations. -/
theorem kinds_symlink (b : String) (l : List String) :
    isMountCmd (Edify.symlink b l) = false ∧
    isVerifyCmd (Edify.symlink b l) = false ∧
    isPatchCmd (Edify.symlink b l) = false ∧
    isDeleteCmd (Edify.symlink b l) = false ∧
    isUnmountCmd (Edify.symlink b l) = false := by
  unfold Edify.symlink isMountCmd isVerifyCmd isPatchCmd isDeleteCmd
    isUnmountCmd
  exact ⟨hasPfx_head_false _ _ _ (by decide),
    hasPfx_head_false _ _ _ (by decide),
    hasPfx_head_false _ _ _ (by decide),
    hasPfx_head_false _ _ _ (by decide),
    hasPfx_head_false _ _ _ (by decide)⟩

/-- An `apply_patch_check` command is not mount / patch / delete /
unmount. -/
theorem kinds_apc (f : String) (sha : List String) (ab : Bool) :
    isMountCmd (Edify.apply_patch_check f sha ab) = false ∧
    isPatchCmd (Edify.apply_patch_check f sha ab) = false ∧
    isDeleteCmd (Edify.apply_patch_check f sha ab) = false ∧
    isUnmountCmd (Edify.apply_patch_check f sha ab) = false := by
  unfold Edify.apply_patch_check isMountCmd isPatchCmd isDeleteCmd
    isUnmountCmd
  exact ⟨hasPfx_head_false _ _ _ (by decide),
    hasPfx_head_false _ _ _ (by decide),
    hasPfx_head_false _ _ _ (by decide),
    hasPfx_head_false _ _ _ (by decide)⟩

/-- An `apply_patch` command string is not mount / verify / delete /
unmount. -/
theorem kinds_apply_patch_str (r : String) :
    isMountCmd ("apply_patch(\"" ++ r) = false ∧
    isVerifyCmd ("apply_patch(\"" ++ r) = false ∧
    isDeleteCmd ("apply_patch(\"" ++ r) = false ∧
    isUnmountCmd ("apply_patch(\"" ++ r) = false := by
  unfold isMountCmd isVerifyCmd isDeleteCmd isUnmountCmd
  exact ⟨hasPfx_head_false _ _ _ (by decide),
    hasPfx_head_false _ _ _ (by decide),
    hasPfx_head_false _ _ _ (by decide),
    hasPfx_head_false _ _ _ (by decide)⟩

/-- A `mount` command is not verify / patch / delete / unmount. -/
theorem kinds_mount (a b c d : String) :
    isVerifyCmd (Edify.mount a b c d) = false ∧
    isPatchCmd (Edify.mount a b c d) = false ∧
    isDeleteCmd (Edify.mount a b c d) = false ∧
    isUnmountCmd (Edify.mount a b c d) = false := by
  unfold Edify.mount isVerifyCmd isPatchCmd isDeleteCmd isUnmountCmd
  exact ⟨hasPfx_head_false _ _ _ (by decide),
    hasPfx_head_false _ _ _ (by decide),
    hasPfx_head_false _ _ _ (by decide),
    hasPfx_head_false _ _ _ (by decide)⟩

/-- An `unmount` command is not mount / verify / patch / delete. -/
theorem kinds_unmount (a : String) :
    isMountCmd (Edify.unmount a) = false ∧
    isVerifyCmd (Edify.unmount a) = false ∧
    isPatchCmd (Edify.unmount a) = false ∧
    isDeleteCmd (Edify.unmount a) = false := by
  unfold Edify.unmount isMountCmd isVerifyCmd isPatchCmd isDeleteCmd
  exact ⟨hasPfx_head_false _ _ _ (by decide),
    hasPfx_head_false _ _ _ (by decide),
    hasPfx_head_false _ _ _ (by decide),
    hasPfx_head_false _ _ _ (by decide)⟩

/-- A `delete` command is not mount / verify / patch / unmount. -/
theorem kinds_delete (l : List String) :
    isMountCmd (Edify.delete l) = false ∧
    isVerifyCmd (Edify.delete l) = false ∧
    isPatchCmd (Edify.delete l) = false ∧
    isUnmountCmd (Edify.delete l) = false := by
  unfold Edify.delete isMountCmd isVerifyCmd isPatchCmd isUnmountCmd
  exact ⟨hasPfx_head_false _ _ _ (by decide),
    hasPfx_head_false _ _ _ (by decide),
    hasPfx_head_false _ _ _ (by decide),
    hasPfx_head_false _ _ _ (by decide)⟩

/-- Successful `Edify.apply_patch` results start with the `apply_patch("`
head. -/
theorem apply_patch_ok_shape (b n : String) (size : Nat) (sha : String)
    (pairs : List String) (ab : Bool) (s : String)
    (h : Edify.apply_patch b n size sha pairs ab = Except.ok s) :
    ∃ r, s = "apply_patch(\"" ++ r := by
  unfold Edify.apply_patch at h
  split at h
  · cases h
  · cases h
    exact ⟨_, rfl⟩

/-- What every element of the verify segment satisfies. -/
def VOk (s : String) : Prop :=
  isMountCmd s = false ∧ isPatchCmd s = false ∧ isDeleteCmd s = false ∧
    isUnmountCmd s = false

/-- What every element of the patch segment satisfies. -/
def POk (s : String) : Prop :=
  isMountCmd s = false ∧ isVerifyCmd s = false ∧ isDeleteCmd s = false ∧
    isUnmountCmd s = false

theorem VOk_ui (m : String) : VOk (Edify.ui_print m) :=
  ⟨(kinds_ui m).1, (kinds_ui m).2.2.1, (kinds_ui m).2.2.2.1,
   (kinds_ui m).2.2.2.2⟩

theorem VOk_apc (f : String) (sha : List String) (ab : Bool) :
    VOk (Edify.apply_patch_check f sha ab) := kinds_apc f sha ab

theorem POk_ui (m : String) : POk (Edify.ui_print m) :=
  ⟨(kinds_ui m).1, (kinds_ui m).2.1, (kinds_ui m).2.2.2.1,
   (kinds_ui m).2.2.2.2⟩

theorem POk_apply_patch (b n : String) (size : Nat) (sha : String)
    (pairs : List String) (ab : Bool) (s : String)
    (h : Edify.apply_patch b n size sha pairs ab = Except.ok s) : POk s := by
  obtain ⟨r, rfl⟩ := apply_patch_ok_shape b n size sha pairs ab s h
  exact kinds_apply_patch_str r

/-- All assert-phase commands are none of the five tracked operations. -/
theorem assert_device_shape (ctx : Ctx) :
    ∀ s ∈ assert_device ctx,
      isMountCmd s = false ∧ isVerifyCmd s = false ∧ isPatchCmd s = false ∧
      isDeleteCmd s = false ∧ isUnmountCmd s = false := by
  intro s hs
  unfold assert_device at hs
  split at hs
  · cases hs
  · rcases List.mem_singleton.mp hs with rfl
    exact kinds_assert ctx.devices

/-- All mount-phase commands are neither verify, patch, delete nor
unmount. -/
theorem mount_system_shape (ctx : Ctx) (m : List String)
    (h : mount_system ctx = Except.ok m) :
    ∀ s ∈ m, isVerifyCmd s = false ∧ isPatchCmd s = false ∧
      isDeleteCmd s = false ∧ isUnmountCmd s = false := by
  intro s hs
  unfold mount_system at h
  split at h
  · cases h
    cases hs
  · split at h
    · cases h
    · cases h
      rcases List.mem_cons.mp hs with rfl | hs'
      · exact ⟨(kinds_ui _).2.1, (kinds_ui _).2.2.1, (kinds_ui _).2.2.2.1,
          (kinds_ui _).2.2.2.2⟩
      · rcases List.mem_singleton.mp hs' with rfl
        exact kinds_mount _ _ _ _

theorem custom_verifying_shape (ctx : Ctx) (f : String) (tmp : List String)
    (h : custom_verifying ctx f = Except.ok tmp) : ∀ s ∈ tmp, VOk s := by
  intro s hs
  unfold custom_verifying at h
  split at h
  · split at h
    · cases h
    · split at h
      · cases h
      · cases h
        rcases List.mem_singleton.mp hs with rfl
        exact VOk_apc _ _ _
  · cases h
    cases hs

theorem assert_boot_shape (ctx : Ctx) (cs : List String)
    (h : assert_boot ctx = Except.ok cs) : ∀ s ∈ cs, VOk s := by
  intro s hs
  unfold assert_boot at h
  split at h
  · cases h
    cases hs
  · split at h
    · cases h
    · split at h
      · cases h
      · split at h
        · cases h
        · cases h
          rcases List.mem_singleton.mp hs with rfl
          exact VOk_apc _ _ _

theorem verify_file_shape (ctx : Ctx) (f : String) (cs : List String)
    (h : verify_file ctx f = Except.ok cs) : ∀ s ∈ cs, VOk s := by
  unfold verify_file at h
  split at h
  · cases h
  · rename_i tmp htmp
    split at h
    · cases h
      exact custom_verifying_shape ctx f _ htmp
    · split at h
      · exact assert_boot_shape ctx cs h
      · split at h
        · cases h
          intro s hs
          cases hs
        · split at h
          · cases h
          · split at h
            · cases h
            · cases h
              intro s hs
              rcases List.mem_singleton.mp hs with rfl
              exact VOk_apc _ _ _

theorem verify_files_shape (ctx : Ctx) (l : List String) (cs : List String)
    (h : verify_files ctx l = Except.ok cs) : ∀ s ∈ cs, VOk s := by
  induction l generalizing cs with
  | nil =>
    rw [verify_files] at h
    cases h
    intro s hs
    cases hs
  | cons f rest ih =>
    rw [verify_files] at h
    split at h
    · cases h
    · rename_i c1 h1
      split at h
      · cases h
      · rename_i r1 h2
        cases h
        intro s hs
        rcases List.mem_append.mp hs with hs' | hs'
        · exact verify_file_shape ctx f c1 h1 s hs'
        · exact ih r1 h2 s hs'

theorem verify_system_shape (ctx : Ctx) (to_diff : List String)
    (v : List String) (h : verify_system ctx to_diff = Except.ok v) :
    ∀ s ∈ v, VOk s := by
  unfold verify_system at h
  split at h
  · cases h
  · rename_i r hr
    cases h
    intro s hs
    rcases List.mem_cons.mp hs with rfl | hs'
    · exact VOk_ui _
    · exact verify_files_shape ctx to_diff r hr s hs'

theorem custom_applying_shape (ctx : Ctx) (f : String) (tmp : List String)
    (h : custom_applying ctx f = Except.ok tmp) : ∀ s ∈ tmp, POk s := by
  intro s hs
  unfold custom_applying at h
  split at h
  · split at h
    · cases h
    · split at h
      · cases h
      · dsimp only at h
        split at h
        · cases h
        · rename_i hap
          cases h
          rcases List.mem_singleton.mp hs with rfl
          exact POk_apply_patch _ _ _ _ _ _ _ hap
  · cases h
    cases hs

theorem flash_boot_shape (ctx : Ctx) (cs : List String)
    (h : flash_boot ctx = Except.ok cs) : ∀ s ∈ cs, POk s := by
  intro s hs
  unfold flash_boot at h
  split at h
  · cases h
    cases hs
  · split at h
    · cases h
    · split at h
      · cases h
      · split at h
        · cases h
        · dsimp only at h
          split at h
          · cases h
          · rename_i hap
            cases h
            rcases List.mem_singleton.mp hs with rfl
            exact POk_apply_patch _ _ _ _ _ _ _ hap

theorem patch_file_shape (ctx : Ctx) (f : String) (cs : List String)
    (h : patch_file ctx f = Except.ok cs) : ∀ s ∈ cs, POk s := by
  unfold patch_file at h
  split at h
  · cases h
  · rename_i tmp htmp
    split at h
    · cases h
      exact custom_applying_shape ctx f _ htmp
    · split at h
      · exact flash_boot_shape ctx cs h
      · split at h
        · cases h
          intro s hs
          cases hs
        · split at h
          · cases h
          · split at h
            · cases h
            · dsimp only at h
              split at h
              · cases h
              · rename_i hap
                cases h
                intro s hs
                rcases List.mem_singleton.mp hs with rfl
                exact POk_apply_patch _ _ _ _ _ _ _ hap

theorem patch_files_shape (ctx : Ctx) (l : List String) (cs : List String)
    (h : patch_files ctx l = Except.ok cs) : ∀ s ∈ cs, POk s := by
  induction l generalizing cs with
  | nil =>
    rw [patch_files] at h
    cases h
    intro s hs
    cases hs
  | cons f rest ih =>
    rw [patch_files] at h
    split at h
    · cases h
    · rename_i c1 h1
      split at h
      · cases h
      · rename_i r1 h2
        cases h
        intro s hs
        rcases List.mem_append.mp hs with hs' | hs'
        · exact patch_file_shape ctx f c1 h1 s hs'
        · exact ih r1 h2 s hs'

theorem patch_system_shape (ctx : Ctx) (to_diff : List String)
    (p : List String) (h : patch_system ctx to_diff = Except.ok p) :
    ∀ s ∈ p, POk s := by
  unfold patch_system at h
  split at h
  · cases h
  · rename_i r hr
    cases h
    intro s hs
    rcases List.mem_cons.mp hs with rfl | hs'
    · exact POk_ui _
    · exact patch_files_shape ctx to_diff r hr s hs'

/-- All delete-phase commands are neither mount, verify, patch nor
unmount. -/
theorem delete_files_shape (ctx : Ctx) :
    ∀ s ∈ delete_files ctx,
      isMountCmd s = false ∧ isVerifyCmd s = false ∧ isPatchCmd s = false ∧
        isUnmountCmd s = false := by
  intro s hs
  unfold delete_files at hs
  dsimp only at hs
  split at hs
  · cases hs
  · rcases List.mem_cons.mp hs with rfl | hs'
    · exact ⟨(kinds_ui _).1, (kinds_ui _).2.1, (kinds_ui _).2.2.1,
        (kinds_ui _).2.2.2.2⟩
    · rcases List.mem_singleton.mp hs' with rfl
      exact kinds_delete _

/-- All symlink-phase commands are none of the five tracked operations. -/
theorem symlink_files_shape (ctx : Ctx) :
    ∀ s ∈ symlink_files ctx,
      isMountCmd s = false ∧ isVerifyCmd s = false ∧ isPatchCmd s = false ∧
      isDeleteCmd s = false ∧ isUnmountCmd s = false := by
  intro s hs
  obtain ⟨pr, _, rfl⟩ := List.mem_map.mp hs
  exact kinds_symlink pr.1 pr.2

/-- The unmount phase is empty or exactly a log line and the unmount
command. -/
theorem unmount_system_shape (ctx : Ctx) :
    unmount_system ctx = [] ∨
      unmount_system ctx =
        [Edify.ui_print "Unmounting system...", Edify.unmount "/system"] := by
  unfold unmount_system
  cases ctx.system_info
  · exact Or.inl rfl
  · exact Or.inr rfl

/-- In `X ++ Y`, if `p` holds nowhere in `Y` and `q` nowhere in `X`, then
every `p`-position precedes every `q`-position. -/
theorem ordered_split (X Y : List String) (p q : String → Bool)
    (hY : ∀ s ∈ Y, p s = false) (hX : ∀ s ∈ X, q s = false) :
    ∀ (i j : Nat) (hi : i < (X ++ Y).length) (hj : j < (X ++ Y).length),
      p ((X ++ Y).get ⟨i, hi⟩) = true → q ((X ++ Y).get ⟨j, hj⟩) = true →
      i < j := by
  intro i j hi hj hp hq
  rw [List.get_eq_getElem] at hp hq
  by_cases hiX : i < X.length
  · by_cases hjX : j < X.length
    · exfalso
      rw [List.getElem_append_left hjX] at hq
      rw [hX _ (List.getElem_mem hjX)] at hq
      exact Bool.noConfusion hq
    · omega
  · exfalso
    have hge : X.length ≤ i := Nat.le_of_not_lt hiX
    rw [List.getElem_append_right hge] at hp
    rw [hY _ (List.getElem_mem (by rw [List.length_append] at hi; omega))]
      at hp
    exact Bool.noConfusion hp

/-- In `R ++ U` with no `q`-position in `R` and `U` empty or a two-element
suffix whose first element is not `q`, any `q`-position is the final
position. -/
theorem last_split (R U : List String) (q : String → Bool)
    (hR : ∀ s ∈ R, q s = false)
    (hU : U = [] ∨ ∃ a b, U = [a, b] ∧ q a = false) :
    ∀ (i : Nat) (hi : i < (R ++ U).length),
      q ((R ++ U).get ⟨i, hi⟩) = true → i = (R ++ U).length - 1 := by
  intro i hi hq
  rw [List.get_eq_getElem] at hq
  rcases hU with rfl | ⟨a, b, rfl, ha⟩
  · exfalso
    have hiR : i < R.length := by
      rw [List.length_append] at hi
      simpa using hi
    rw [List.getElem_append_left hiR] at hq
    rw [hR _ (List.getElem_mem hiR)] at hq
    exact Bool.noConfusion hq
  · have hlen : (R ++ [a, b]).length = R.length + 2 := by simp
    by_cases hiR : i < R.length
    · exfalso
      rw [List.getElem_append_left hiR] at hq
      rw [hR _ (List.getElem_mem hiR)] at hq
      exact Bool.noConfusion hq
    · have hge : R.length ≤ i := Nat.le_of_not_lt hiR
      have hcase : i = R.length ∨ i = R.length + 1 := by
        rw [hlen] at hi
        omega
      rcases hcase with rfl | rfl
      · exfalso
        rw [List.getElem_append_right hge] at hq
        simp only [Nat.sub_self] at hq
        rw [show ([a, b][0] : String) = a from rfl, ha] at hq
        exact Bool.noConfusion hq
      · rw [hlen]
        omega

/-- `ordered_split`, stated for any list equal to the given split. -/
theorem ordered_split_eq (L X Y : List String) (hL : L = X ++ Y)
    (p q : String → Bool)
    (hY : ∀ s ∈ Y, p s = false) (hX : ∀ s ∈ X, q s = false) :
    ∀ (i j : Nat) (hi : i < L.length) (hj : j < L.length),
      p (L.get ⟨i, hi⟩) = true → q (L.get ⟨j, hj⟩) = true → i < j := by
  subst hL
  exact ordered_split X Y p q hY hX

/-- `last_split`, stated for any list equal to the given split. -/
theorem last_split_eq (L R U : List String) (hL : L = R ++ U)
    (q : String → Bool)
    (hR : ∀ s ∈ R, q s = false)
    (hU : U = [] ∨ ∃ a b, U = [a, b] ∧ q a = false) :
    ∀ (i : Nat) (hi : i < L.length),
      q (L.get ⟨i, hi⟩) = true → i = L.length - 1 := by
  subst hL
  exact last_split R U q hR hU

/-- C4: in every script `generate` assembles (under the stock device
policy's empty pre-flash and post-flash hooks), the mount operation
precedes every verify operation, every delete operation follows every
patch operation, and an unmount operation can only be the script's final
operation. -/
theorem deltajen_C4 (ctx : Ctx) (to_diff : List String)
    (script : List String)
    (hpre : ctx.pre_flash = []) (hpost : ctx.post_flash = [])
    (hgen : generate_script ctx to_diff = Except.ok script) :
    (∀ (i j : Nat) (hi : i < script.length) (hj : j < script.length),
        isMountCmd (script.get ⟨i, hi⟩) = true →
        isVerifyCmd (script.get ⟨j, hj⟩) = true → i < j) ∧
    (∀ (i j : Nat) (hi : i < script.length) (hj : j < script.length),
        isPatchCmd (script.get ⟨i, hi⟩) = true →
        isDeleteCmd (script.get ⟨j, hj⟩) = true → i < j) ∧
    (∀ (i : Nat) (hi : i < script.length),
        isUnmountCmd (script.get ⟨i, hi⟩) = true →
        i = script.length - 1) := by
  unfold generate_script at hgen
  split at hgen
  · cases hgen
  · rename_i m hmount
    split at hgen
    · cases hgen
    · rename_i v hverify
      split at hgen
      · cases hgen
      · rename_i p hpatch
        cases hgen
        have hA := assert_device_shape ctx
        have hm := mount_system_shape ctx m hmount
        have hv := verify_system_shape ctx to_diff v hverify
        have hp := patch_system_shape ctx to_diff p hpatch
        have hD := delete_files_shape ctx
        have hS := symlink_files_shape ctx
        have hUs := unmount_system_shape ctx
        have hU : ∀ s ∈ unmount_system ctx,
            isMountCmd s = false ∧ isVerifyCmd s = false ∧
            isPatchCmd s = false ∧ isDeleteCmd s = false := by
          rcases hUs with h | h <;> rw [h] <;> intro s hs
          · cases hs
          · rcases List.mem_cons.mp hs with rfl | hs'
            · exact ⟨(kinds_ui _).1, (kinds_ui _).2.1, (kinds_ui _).2.2.1,
                (kinds_ui _).2.2.2.1⟩
            · rcases List.mem_singleton.mp hs' with rfl
              exact ⟨(kinds_unmount _).1, (kinds_unmount _).2.1,
                (kinds_unmount _).2.2.1, (kinds_unmount _).2.2.2⟩
        refine ⟨?_, ?_, ?_⟩
        · refine ordered_split_eq _ (assert_device ctx ++ m)
            (v ++ (p ++ (delete_files ctx ++
              (symlink_files ctx ++ unmount_system ctx))))
            (by rw [hpre, hpost]; simp [List.append_assoc])
            isMountCmd isVerifyCmd ?_ ?_
          · intro s hs
            rcases List.mem_append.mp hs with h' | hs'
            · exact (hv s h').1
            rcases List.mem_append.mp hs' with h' | hs''
            · exact (hp s h').1
            rcases List.mem_append.mp hs'' with h' | hs'''
            · exact (hD s h').1
            rcases List.mem_append.mp hs''' with h' | h'
            · exact (hS s h').1
            · exact (hU s h').1
          · intro s hs
            rcases List.mem_append.mp hs with h' | h'
            · exact (hA s h').2.1
            · exact (hm s h').1
        · refine ordered_split_eq _
            (((assert_device ctx ++ m) ++ v) ++ p)
            (delete_files ctx ++ (symlink_files ctx ++ unmount_system ctx))
            (by rw [hpre, hpost]; simp [List.append_assoc])
            isPatchCmd isDeleteCmd ?_ ?_
          · intro s hs
            rcases List.mem_append.mp hs with h' | hs'
            · exact (hD s h').2.2.1
            rcases List.mem_append.mp hs' with h' | h'
            · exact (hS s h').2.2.1
            · exact (hU s h').2.2.1
          · intro s hs
            rcases List.mem_append.mp hs with hs' | h'
            · rcases List.mem_append.mp hs' with hs'' | h'
              · rcases List.mem_append.mp hs'' with h' | h'
                · exact (hA s h').2.2.2.1
                · exact (hm s h').2.2.1
              · exact (hv s h').2.2.1
            · exact (hp s h').2.2.1
        · refine last_split_eq _
            (((((assert_device ctx ++ m) ++ v) ++ p) ++ delete_files ctx)
              ++ symlink_files ctx)
            (unmount_system ctx)
            (by rw [hpre, hpost]; simp [List.append_assoc])
            isUnmountCmd ?_ ?_
          · intro s hs
            rcases List.mem_append.mp hs with hs' | h'
            · rcases List.mem_append.mp hs' with hs'' | h'
              · rcases List.mem_append.mp hs'' with hs''' | h'
                · rcases List.mem_append.mp hs''' with hs'''' | h'
                  · rcases List.mem_append.mp hs'''' with h' | h'
                    · exact (hA s h').2.2.2.2
                    · exact (hm s h').2.2.2
                  · exact (hv s h').2.2.2
                · exact (hp s h').2.2.2
              · exact (hD s h').2.2.2
            · exact (hS s h').2.2.2.2
          · rcases hUs with h | h
            · exact Or.inl h
            · exact Or.inr ⟨_, _, h, (kinds_ui _).2.2.2.2⟩

def ctxC4 : Ctx :=
  { system_info := some ("/dev/block/sys", "ext4"),
    base_ptr := [⟨"system/a", [0], 5, 0⟩, ⟨"system/r", [1], 5, 0⟩],
    input_ptr := [⟨"system/a", [2], 6, 0⟩, ⟨"system/n", [3], 6, 0⟩] }

def c4script : List String :=
  match generate_script ctxC4 ["system/a"] with
  | Except.ok s => s
  | Except.error _ => []

set_option maxRecDepth 1000000 in
theorem deltajen_C4_witness :
    (∀ (i j : Nat) (hi : i < c4script.length) (hj : j < c4script.length),
        isMountCmd (c4script.get ⟨i, hi⟩) = true →
        isVerifyCmd (c4script.get ⟨j, hj⟩) = true → i < j) ∧
    (∀ (i j : Nat) (hi : i < c4script.length) (hj : j < c4script.length),
        isPatchCmd (c4script.get ⟨i, hi⟩) = true →
        isDeleteCmd (c4script.get ⟨j, hj⟩) = true → i < j) ∧
    (∀ (i : Nat) (hi : i < c4script.length),
        isUnmountCmd (c4script.get ⟨i, hi⟩) = true →
        i = c4script.length - 1) :=
  deltajen_C4 ctxC4 ["system/a"] c4script rfl rfl rfl

end DeltaJen
